import Mathlib

/-!
Verification of the superinference-py GitHub inference engine
(`src/superinference/github.py`) against its natural-language specification.

The Python code is shallowly embedded: each HTTP response is an explicit
value handed to the embedded function, dictionaries become total functions
or association lists, machine integers become `Nat`, and raising an
exception becomes returning an `Except` error value.
-/

namespace Superinference

/-! ## Paginator (`GithubBaseClass._multipage_request`, github.py lines 88-120)

A `Page` models one HTTP response consumed by the pagination loop: the
list extracted from the JSON body (`response.json()` or
`response.json()[json_key]`), the parsed `Link: rel="next"` header
(`_parse_next_link`), and the `X-Ratelimit-Remaining` header.
The `/search/` branch of `_multipage_request` (which additionally returns
`total_count` from the last response) is not exercised by any caller in
this file's claims; the embedding below models the non-search return shape
`(item_list, incomplete_results)`. -/

structure Page (α : Type) where
  items : List α
  nextLink : Option String
  remainingRate : Nat

/-- Default page used only as the `List.getD` fallback in statements. -/
def pageDefault {α : Type} : Page α := ⟨[], none, 0⟩

/-- The `while url:` loop of `_multipage_request`: extend the accumulator
with the page's items, parse the next link, then stop with
`incomplete_results = True` if a next link remains while
`X-Ratelimit-Remaining` is `0`.  The successive responses returned by the
HTTP client are supplied as the list `pages`. -/
def multipageLoop {α : Type} : Option String → List (Page α) → List α → List α × Bool
  | none, _, acc => (acc, false)
  | some _, [], acc => (acc, false)
  | some _, p :: rest, acc =>
    match p.nextLink with
    | none => (acc ++ p.items, false)
    | some next =>
      if p.remainingRate = 0 then (acc ++ p.items, true)
      else multipageLoop (some next) rest (acc ++ p.items)

/-- `_multipage_request(url)` for a non-search endpoint. -/
def multipageRequest {α : Type} (url : String) (pages : List (Page α)) : List α × Bool :=
  multipageLoop (some url) pages []

/-- The run of the pagination loop halts on page `j`: every earlier page
has a next link and non-zero remaining rate, and page `j` either has no
next link or has its remaining-rate header at `0`. -/
def haltsAt {α : Type} (pages : List (Page α)) (j : Nat) : Prop :=
  j < pages.length ∧
  (∀ p ∈ pages.take j, p.nextLink.isSome = true ∧ p.remainingRate ≠ 0) ∧
  ((pages.getD j pageDefault).nextLink = none ∨ (pages.getD j pageDefault).remainingRate = 0)

instance {α : Type} (pages : List (Page α)) (j : Nat) : Decidable (haltsAt pages j) := by
  unfold haltsAt
  infer_instance

/-- The `incomplete_results` flag produced when the loop halts on page `j`:
true exactly when a next link remains while the rate header is `0`. -/
def stopFlag {α : Type} (pages : List (Page α)) (j : Nat) : Bool :=
  (pages.getD j pageDefault).nextLink.isSome && (pages.getD j pageDefault).remainingRate == 0

theorem multipageLoop_halts {α : Type} :
    ∀ (pages : List (Page α)) (j : Nat) (acc : List α) (u : String),
    haltsAt pages j →
    multipageLoop (some u) pages acc =
      (acc ++ ((pages.take (j + 1)).map Page.items).flatten, stopFlag pages j)
  | [], j, _, _, h => absurd h.1 (by simp)
  | p :: rest, 0, acc, u, h => by
    rcases h with ⟨-, -, hstop⟩
    simp only [List.getD, List.get?, Option.getD_some] at hstop
    simp only [multipageLoop, stopFlag, List.take_succ_cons, List.take_zero,
      List.map_cons, List.map_nil, List.flatten_cons, List.flatten_nil,
      List.append_nil, List.getD, List.get?, Option.getD_some]
    rcases hnl : p.nextLink with _ | next
    · simp
    · rcases hstop with hstop | hstop
      · rw [hnl] at hstop; cases hstop
      · simp [hstop, hnl]
  | p :: rest, j + 1, acc, u, h => by
    rcases h with ⟨hlen, hpre, hstop⟩
    have hp : p.nextLink.isSome = true ∧ p.remainingRate ≠ 0 :=
      hpre p (by simp [List.take_succ_cons])
    rcases hnl : p.nextLink with _ | next
    · rw [hnl] at hp; cases hp.1
    · have hrest : haltsAt rest j := by
        refine ⟨by simpa using hlen, fun q hq => hpre q ?_, ?_⟩
        · simp [List.take_succ_cons, hq]
        · simpa [List.getD] using hstop
      have ih := multipageLoop_halts rest j (acc ++ p.items) next hrest
      simp only [multipageLoop, hnl, hp.2, if_neg hp.2, ih]
      simp [stopFlag, List.take_succ_cons, List.getD]

/-- Claim C1: for every start URL and every sequence of pages returned by
the HTTP client, `_multipage_request` accumulates the items of each
fetched page in fetch order, and stops exactly at the first page with no
next link (`incomplete = false`) or whose remaining-rate header is `0`
while a next link remains (`incomplete = true`, items so far, no raise). -/
theorem paginator_accumulates {α : Type} (url : String) (pages : List (Page α)) (j : Nat)
    (h : haltsAt pages j) :
    multipageRequest url pages =
      (((pages.take (j + 1)).map Page.items).flatten, stopFlag pages j) := by
  simpa using multipageLoop_halts pages j [] url h

/-- Witness for `paginator_accumulates`: a three-page run whose second page
still advertises a next link but reports a zero remaining rate, so the
third page is never fetched and `incomplete = true`. -/
theorem paginator_accumulates_witness :
    haltsAt [⟨[1, 2], some "p2", 5⟩, ⟨[3], some "p3", 0⟩, ⟨[4], none, 7⟩] 1 ∧
    multipageRequest "p1"
        ([⟨[1, 2], some "p2", 5⟩, ⟨[3], some "p3", 0⟩, ⟨[4], none, 7⟩] : List (Page Nat)) =
      ([1, 2, 3], true) :=
  ⟨by decide,
   by
    have h := paginator_accumulates "p1"
      ([⟨[1, 2], some "p2", 5⟩, ⟨[3], some "p3", 0⟩, ⟨[4], none, 7⟩] : List (Page Nat)) 1
      (by decide)
    simpa using h⟩

/-! ## Error classifier (`GithubBaseClass._error_handling`, github.py lines 22-47)

An `HttpResponse` carries the status code and, for GraphQL bodies, the
`message` strings of the entries of the JSON body's `errors` array
(`none` when the body has no `errors` key).  Python truthiness of the
access token (`if self.access_token:`) is `pythonTruthyToken`; an absent
token and an empty-string token are both falsy. -/

structure HttpResponse where
  statusCode : Nat
  errorMessages : Option (List String)

/-- Python truthiness of `self.access_token`. -/
def pythonTruthyToken : Option String → Bool
  | none => false
  | some s => !s.isEmpty

/-- Message text of the 403 branch, which depends on token presence. -/
def rateLimitMessage (withToken : Bool) : String :=
  if withToken then "API rate limit exceeded, please try again later."
  else "API rate limit exceeded, please provide an access token to increase rate limit."

/-- The typed failures the embedded code can raise.  `identityMismatch` is
the local consistency failure of `_username_token_check`; `indexError`
models the Python `IndexError` raised by `json_data["errors"][0]` on an
empty `errors` array; `zeroDivisionError` models Python's
`ZeroDivisionError`. -/
inductive GithubError where
  | authRequired
  | authInvalid
  | rateLimited (message : String)
  | notFound
  | unknownStatus (code : Nat)
  | graphQLError (message : String)
  | indexError
  | identityMismatch
  | zeroDivisionError
  deriving DecidableEq, Repr

/-- `_error_handling(response, graphql)`: translated branch by branch from
github.py lines 28-47.  On a 200 GraphQL response the code raises only
when `json_data["errors"][0]["message"]` is truthy, i.e. when the first
error's message string is non-empty; an `errors` key holding an empty
array makes `json_data["errors"][0]` itself raise an `IndexError`. -/
def errorHandling (accessToken : Option String) (response : HttpResponse) (graphql : Bool) :
    Except GithubError Unit :=
  if response.statusCode = 200 then
    if graphql then
      match response.errorMessages with
      | none => .ok ()
      | some [] => .error .indexError
      | some (m :: _) => if m.isEmpty then .ok () else .error (.graphQLError m)
    else .ok ()
  else if response.statusCode = 401 then
    if pythonTruthyToken accessToken then .error .authInvalid else .error .authRequired
  else if response.statusCode = 403 then
    .error (.rateLimited (rateLimitMessage (pythonTruthyToken accessToken)))
  else if response.statusCode = 404 then
    .error .notFound
  else
    .error (.unknownStatus response.statusCode)

/-- The total response-to-failure mapping as the (amended) specification
enumerates it, written in the spec's own order: 401 without a token is
the auth-required error, 401 with a token the invalid-token error, 403 a
rate-limit error whose message depends on token presence, 404 not-found,
any other non-200 status the error carrying the numeric code; a 200
GraphQL response raises the GraphQL error exactly when the first entry of
a present `errors` array has a non-empty message (an empty `errors` array
surfaces an index error), and a 200 response raises nothing otherwise. -/
def errorSpecified (accessToken : Option String) (response : HttpResponse) (graphql : Bool) :
    Except GithubError Unit :=
  if response.statusCode = 401 ∧ pythonTruthyToken accessToken = false then .error .authRequired
  else if response.statusCode = 401 ∧ pythonTruthyToken accessToken = true then .error .authInvalid
  else if response.statusCode = 403 then
    .error (.rateLimited (rateLimitMessage (pythonTruthyToken accessToken)))
  else if response.statusCode = 404 then .error .notFound
  else if response.statusCode ≠ 200 then .error (.unknownStatus response.statusCode)
  else if graphql then
    match response.errorMessages with
    | none => .ok ()
    | some [] => .error .indexError
    | some (m :: _) => if m ≠ "" then .error (.graphQLError m) else .ok ()
  else .ok ()

/-- Claim C2, counterexample: a 200 GraphQL response whose `errors` array
is non-empty (it holds one error whose `message` is the empty string)
raises nothing, contradicting the claim that a 200 GraphQL response with
a non-empty `errors` array always raises. -/
theorem error_classifier_counterexample :
    ([""] : List String) ≠ [] ∧
    errorHandling (some "ghp_token") ⟨200, some [""]⟩ true = Except.ok () := by
  constructor
  · decide
  · rfl

/-- Claim C2, amended: `_error_handling` realizes the total mapping of the
amended specification (`errorSpecified`), and the two 403 rate-limit
messages really differ by token presence. -/
theorem error_classifier_total_mapping :
    (∀ (accessToken : Option String) (response : HttpResponse) (graphql : Bool),
      errorHandling accessToken response graphql = errorSpecified accessToken response graphql) ∧
    rateLimitMessage true ≠ rateLimitMessage false := by
  constructor
  · intro tok r gql
    unfold errorHandling errorSpecified
    by_cases h200 : r.statusCode = 200
    · have h401 : ¬ r.statusCode = 401 := by omega
      have h403 : ¬ r.statusCode = 403 := by omega
      have h404 : ¬ r.statusCode = 404 := by omega
      cases gql with
      | false => simp [h200, h401, h403, h404]
      | true =>
        rcases herr : r.errorMessages with _ | (_ | ⟨m, rest⟩)
        · simp [h200, h401, h403, h404, herr]
        · simp [h200, h401, h403, h404, herr]
        · by_cases hm : m = ""
          · simp [h200, h401, h403, h404, herr, hm, String.isEmpty_iff]
          · have hmi : m.isEmpty = false := by
              rcases he : m.isEmpty with _ | _
              · rfl
              · exact absurd ((String.isEmpty_iff m).mp he) hm
            simp [h200, h401, h403, h404, herr, hm, hmi]
    · by_cases h401 : r.statusCode = 401
      · cases htok : pythonTruthyToken tok <;> simp [h200, h401, htok]
      · by_cases h403 : r.statusCode = 403
        · simp [h200, h401, h403]
        · by_cases h404 : r.statusCode = 404 <;> simp [h200, h401, h403, h404]
  · decide

/-! ## Repository aggregator (`GithubProfile._repository_inference`, github.py lines 192-249)

A `Repo` carries the fields of one element of the repository-listing JSON
that `_repository_inference` and `_skill_inference` read. -/

structure Repo where
  name : String
  owner_login : String
  fork : Bool
  html_url : String
  description : String
  language : Option String
  stargazers_count : Nat
  forks_count : Nat
  deriving DecidableEq, Repr

/-- Sort key of `repos.sort(key=lambda r: r["stargazers_count"] + r["forks_count"], reverse=True)`. -/
def repoSortKey (r : Repo) : Nat :=
  r.stargazers_count + r.forks_count

/-- Descending comparison used by the embedded stable sort: Python's
`list.sort` with `reverse=True` is a stable sort placing larger keys
first. -/
def repoLE (a b : Repo) : Bool :=
  decide (repoSortKey b ≤ repoSortKey a)

/-- The sorted repository list (github.py lines 210-213). -/
def sortRepos (repos : List Repo) : List Repo :=
  repos.mergeSort repoLE

/-- The `original_repos` partition (github.py lines 215-218): not a fork
and owned by the identity username.  The loop appends matching elements
of the sorted list in order, which is exactly a filter. -/
def originalRepos (username : String) (repos : List Repo) : List Repo :=
  (sortRepos repos).filter (fun r => !r.fork && r.owner_login == username)

/-- The `forked_repos` partition (github.py lines 219-220). -/
def forkedRepos (username : String) (repos : List Repo) : List Repo :=
  (sortRepos repos).filter (fun r => r.fork && r.owner_login == username)

theorem repoLE_trans (a b c : Repo) : repoLE a b → repoLE b c → repoLE a c := by
  simp only [repoLE, decide_eq_true_eq]
  omega

theorem repoLE_total (a b : Repo) : repoLE a b || repoLE b a := by
  simp only [repoLE, Bool.or_eq_true, decide_eq_true_eq]
  omega

theorem length_filter_partition (username : String) :
    ∀ l : List Repo,
    (l.filter (fun r => !r.fork && r.owner_login == username)).length +
      (l.filter (fun r => r.fork && r.owner_login == username)).length =
      (l.filter (fun r => r.owner_login == username)).length
  | [] => rfl
  | r :: l => by
    have ih := length_filter_partition username l
    cases hf : r.fork <;> cases ho : r.owner_login == username <;>
      simp [List.filter_cons, hf, ho] <;> omega

/-- Claim C6: the partition of `_repository_inference` satisfies
`original_repo_count + forked_repo_count` = number of fetched repos owned
by the identity; repos not owned by the identity land in neither
partition; and every repo counted as original is owned by the identity
and is not a fork. -/
theorem repository_partition (username : String) (repos : List Repo) :
    (originalRepos username repos).length + (forkedRepos username repos).length =
      (repos.filter (fun r => r.owner_login == username)).length ∧
    (∀ r ∈ originalRepos username repos, r.owner_login = username ∧ r.fork = false) ∧
    (∀ r, r.owner_login ≠ username →
      r ∉ originalRepos username repos ∧ r ∉ forkedRepos username repos) := by
  refine ⟨?_, ?_, ?_⟩
  · have hperm : List.Perm (sortRepos repos) repos := List.mergeSort_perm repos repoLE
    have h1 := (hperm.filter (fun r => r.owner_login == username)).length_eq
    have h2 := length_filter_partition username (sortRepos repos)
    unfold originalRepos forkedRepos
    omega
  · intro r hr
    have := List.of_mem_filter hr
    simp only [Bool.and_eq_true, Bool.not_eq_true', beq_iff_eq] at this
    exact ⟨this.2, this.1⟩
  · intro r hr
    constructor
    · intro hmem
      have := List.of_mem_filter hmem
      simp only [Bool.and_eq_true, beq_iff_eq] at this
      exact hr this.2
    · intro hmem
      have := List.of_mem_filter hmem
      simp only [Bool.and_eq_true, beq_iff_eq] at this
      exact hr this.2

/-- Witness for `repository_partition` at a concrete two-owner listing. -/
theorem repository_partition_witness :
    (⟨"r1", "bob", false, "u1", "", none, 1, 0⟩ : Repo).owner_login ≠ "alice" ∧
    (⟨"r1", "bob", false, "u1", "", none, 1, 0⟩ : Repo) ∉
      originalRepos "alice"
        [⟨"r0", "alice", false, "u0", "", none, 2, 0⟩, ⟨"r1", "bob", false, "u1", "", none, 1, 0⟩] ∧
    (⟨"r1", "bob", false, "u1", "", none, 1, 0⟩ : Repo) ∉
      forkedRepos "alice"
        [⟨"r0", "alice", false, "u0", "", none, 2, 0⟩, ⟨"r1", "bob", false, "u1", "", none, 1, 0⟩] := by
  have h := (repository_partition "alice"
    [⟨"r0", "alice", false, "u0", "", none, 2, 0⟩,
     ⟨"r1", "bob", false, "u1", "", none, 1, 0⟩]).2.2
    ⟨"r1", "bob", false, "u1", "", none, 1, 0⟩ (by decide)
  exact ⟨by decide, h.1, h.2⟩

/-- Claim C7: the repository sort is descending by stars + forks and
stable: for every key value, the repositories carrying that key appear in
the sorted output exactly in their original fetch order. -/
theorem repository_sort_stable (repos : List Repo) :
    (sortRepos repos).Pairwise (fun a b => repoSortKey b ≤ repoSortKey a) ∧
    ∀ k : Nat, (sortRepos repos).filter (fun r => repoSortKey r == k) =
      repos.filter (fun r => repoSortKey r == k) := by
  constructor
  · have h := List.sorted_mergeSort repoLE_trans repoLE_total repos
    exact h.imp (fun hab => by simpa [repoLE] using hab)
  · intro k
    set p : Repo → Bool := fun r => repoSortKey r == k with hp
    have hmemk : ∀ r ∈ repos.filter p, p r = true := fun r hr => List.of_mem_filter hr
    have hc_pw : (repos.filter p).Pairwise (fun a b => repoLE a b = true) := by
      apply List.pairwise_of_forall_mem_list
      intro a ha b hb
      have hak := List.of_mem_filter ha
      have hbk := List.of_mem_filter hb
      simp only [hp, beq_iff_eq] at hak hbk
      simp [repoLE, hak, hbk]
    have h1 : List.Sublist (repos.filter p) (sortRepos repos) :=
      List.sublist_mergeSort repoLE_trans repoLE_total hc_pw (List.filter_sublist repos)
    have h2 : (repos.filter p).filter p = repos.filter p :=
      List.filter_eq_self.mpr hmemk
    have h3 : List.Sublist (repos.filter p) ((sortRepos repos).filter p) :=
      h2 ▸ h1.filter p
    have h4 : ((sortRepos repos).filter p).length = (repos.filter p).length :=
      ((List.mergeSort_perm repos repoLE).filter p).length_eq
    exact (h3.eq_of_length h4.symm).symm

/-! ## Calendar arithmetic for `_contribution_inference` (github.py lines 251-461)

Python `datetime` values are embedded as proleptic-Gregorian civil dates
(the sub-day time component plays no role in any claim: the code buckets
by `%a`/`%b`, compares against `now - 365 days`, and subtracts dates via
`.days`).  `dayNumber` counts days since 0001-01-01, which was a Monday,
so `dayNumber % 7` is exactly Python's `date.weekday()` and `%a` bucket. -/

structure CivilDate where
  year : Nat
  month : Nat
  day : Nat
  deriving DecidableEq, Repr

def isLeapYear (y : Nat) : Bool :=
  (y % 4 == 0 && y % 100 != 0) || y % 400 == 0

def daysBeforeMonth (leap : Bool) (m : Nat) : Nat :=
  let base :=
    match m with
    | 1 => 0 | 2 => 31 | 3 => 59 | 4 => 90 | 5 => 120 | 6 => 151
    | 7 => 181 | 8 => 212 | 9 => 243 | 10 => 273 | 11 => 304 | _ => 334
  if leap && m ≥ 3 then base + 1 else base

def dayNumber (d : CivilDate) : Nat :=
  365 * (d.year - 1) + (d.year - 1) / 4 - (d.year - 1) / 100 + (d.year - 1) / 400
    + daysBeforeMonth (isLeapYear d.year) d.month + (d.day - 1)

/-- Python `date.weekday()` / the `%a` day-of-week bucket key. -/
def weekdayIdx (d : CivilDate) : Fin 7 :=
  ⟨dayNumber d % 7, Nat.mod_lt _ (by decide)⟩

/-- The `%b` month bucket key (months `1..12` map to `0..11`). -/
def monthIdx (d : CivilDate) : Fin 12 :=
  ⟨(d.month - 1) % 12, Nat.mod_lt _ (by decide)⟩

/-- Sanity: 2000-01-01 was a Saturday (`%a` index 5 counting from Monday). -/
example : weekdayIdx ⟨2000, 1, 1⟩ = ⟨5, by decide⟩ := by decide

/-- Tests `c_date >= datetime.now() - timedelta(days=365)`. -/
def withinPastYear (today d : CivilDate) : Bool :=
  dayNumber d + 365 ≥ dayNumber today

/-- One element of `contributionDays` in the GraphQL daily calendar. -/
structure DayRecord where
  date : CivilDate
  contributionCount : Nat
  deriving DecidableEq, Repr

/-- One year-bounded `contributionsCollection` response: the calendar's
self-reported `totalContributions` plus its flattened `contributionDays`. -/
structure CalendarWindow where
  totalContributions : Nat
  days : List DayRecord
  deriving DecidableEq, Repr

/-- `contributions_count`, accumulated across the year windows from each
calendar's `totalContributions` field (github.py line 357). -/
def graphContributionsCount (ws : List CalendarWindow) : Nat :=
  (ws.map (·.totalContributions)).sum

/-- `contributions_per_day`, extended window by window (github.py line 356). -/
def contributionsPerDay (ws : List CalendarWindow) : List DayRecord :=
  ws.flatMap (·.days)

/-- One `count["day"]`/`count["month"]` dict update (github.py lines
389-397): the trailing-365-day sub-count grows only for recent dates,
the all-time count always grows. -/
def bucketUpdate (recent : Bool) (cnt : Nat) (pair : Nat × Nat) : Nat × Nat :=
  (if recent then pair.1 + cnt else pair.1, pair.2 + cnt)

/-- Processing one day record into a bucket table.  The Python dict with
`get(key, [0, 0])` defaulting is embedded as a total function initially
constant `(0, 0)`. -/
def bucketStep {n : Nat} (idx : DayRecord → Fin n) (today : CivilDate)
    (f : Fin n → Nat × Nat) (r : DayRecord) : Fin n → Nat × Nat :=
  Function.update f (idx r)
    (bucketUpdate (withinPastYear today r.date) r.contributionCount (f (idx r)))

/-- The `count["day"]` table after the temporal pass. -/
def dayTotals (today : CivilDate) (records : List DayRecord) : Fin 7 → Nat × Nat :=
  records.foldl (bucketStep (fun r => weekdayIdx r.date) today) (fun _ => (0, 0))

/-- The `count["month"]` table after the temporal pass. -/
def monthTotals (today : CivilDate) (records : List DayRecord) : Fin 12 → Nat × Nat :=
  records.foldl (bucketStep (fun r => monthIdx r.date) today) (fun _ => (0, 0))

theorem sum_bucketStep {n : Nat} (idx : DayRecord → Fin n) (today : CivilDate)
    (f : Fin n → Nat × Nat) (r : DayRecord) :
    (∑ i, (bucketStep idx today f r i).2) = (∑ i, (f i).2) + r.contributionCount := by
  have hpt : ∀ i, (bucketStep idx today f r i).2 =
      Function.update (fun i => (f i).2) (idx r) ((f (idx r)).2 + r.contributionCount) i := by
    intro i
    by_cases h : i = idx r
    · subst h; simp [bucketStep, bucketUpdate]
    · simp [bucketStep, bucketUpdate, Function.update_noteq h]
  rw [Finset.sum_congr rfl (fun i _ => hpt i)]
  rw [Finset.sum_update_of_mem (Finset.mem_univ (idx r))]
  have herase := Finset.add_sum_erase Finset.univ (fun i => (f i).2) (Finset.mem_univ (idx r))
  rw [Finset.sdiff_singleton_eq_erase]
  simp only [] at herase ⊢
  omega

theorem sum_foldl_buckets {n : Nat} (idx : DayRecord → Fin n) (today : CivilDate) :
    ∀ (records : List DayRecord) (f : Fin n → Nat × Nat),
    (∑ i, ((records.foldl (bucketStep idx today) f) i).2) =
      (∑ i, (f i).2) + (records.map (·.contributionCount)).sum
  | [], _ => by simp
  | r :: rs, f => by
    have ih := sum_foldl_buckets idx today rs (bucketStep idx today f r)
    simp only [List.foldl_cons, List.map_cons, List.sum_cons] at ih ⊢
    rw [ih, sum_bucketStep]
    omega

theorem sum_counts_flatMap :
    ∀ ws : List CalendarWindow,
    (∀ w ∈ ws, w.totalContributions = (w.days.map (·.contributionCount)).sum) →
    ((contributionsPerDay ws).map (·.contributionCount)).sum = graphContributionsCount ws
  | [], _ => rfl
  | w :: ws, h => by
    have ih := sum_counts_flatMap ws (fun w' hw' => h w' (List.mem_cons_of_mem _ hw'))
    have hw := h w (List.mem_cons_self w ws)
    simp only [contributionsPerDay, graphContributionsCount, List.flatMap_cons,
      List.map_cons, List.map_append, List.sum_cons, List.sum_append] at ih ⊢
    omega

/-- Claim C8: after the temporal pass, the all-time per-day-of-week bucket
counts sum to the total contribution count computed in that pass, and the
all-time per-month bucket counts sum to the same total.  The hypothesis
records that each GraphQL calendar response is internally consistent: its
`totalContributions` equals the sum of its daily `contributionCount`s. -/
theorem temporal_bucket_sums (today : CivilDate) (ws : List CalendarWindow)
    (h : ∀ w ∈ ws, w.totalContributions = (w.days.map (·.contributionCount)).sum) :
    (∑ i, (dayTotals today (contributionsPerDay ws) i).2) = graphContributionsCount ws ∧
    (∑ i, (monthTotals today (contributionsPerDay ws) i).2) = graphContributionsCount ws := by
  have hd := sum_foldl_buckets (fun r => weekdayIdx r.date) today (contributionsPerDay ws)
    (fun _ => (0, 0))
  have hm := sum_foldl_buckets (fun r => monthIdx r.date) today (contributionsPerDay ws)
    (fun _ => (0, 0))
  have hc := sum_counts_flatMap ws h
  constructor
  · rw [dayTotals, hd, hc]; simp
  · rw [monthTotals, hm, hc]; simp

/-- Witness for `temporal_bucket_sums`: one calendar window spanning a
year boundary whose `totalContributions` matches its daily counts. -/
theorem temporal_bucket_sums_witness :
    (∑ i, (dayTotals ⟨2023, 5, 1⟩
      (contributionsPerDay [⟨3, [⟨⟨2023, 1, 2⟩, 1⟩, ⟨⟨2022, 12, 31⟩, 2⟩]⟩]) i).2) = 3 ∧
    (∑ i, (monthTotals ⟨2023, 5, 1⟩
      (contributionsPerDay [⟨3, [⟨⟨2023, 1, 2⟩, 1⟩, ⟨⟨2022, 12, 31⟩, 2⟩]⟩]) i).2) = 3 := by
  have h := temporal_bucket_sums ⟨2023, 5, 1⟩
    [⟨3, [⟨⟨2023, 1, 2⟩, 1⟩, ⟨⟨2022, 12, 31⟩, 2⟩]⟩] (by decide)
  simpa [graphContributionsCount] using h

/-! ## Weekly average (`_contribution_inference`, github.py lines 432-433) -/

/-- `total_weeks = round((today - created_date).days / 7)`.  For an
integer day count `d / 7` is never an exact half, so Python's
round-half-even equals rounding to the nearest integer, i.e.
`(2 * d + 7) / 14` in integer division. -/
def totalWeeks (daysSinceCreation : Nat) : Nat :=
  (2 * daysSinceCreation + 7) / 14

/-- Python `round(x, 3)`, embedded over `ℚ` (exact half ties, which
round-half-even and round-half-up settle differently, play no role in any
claim). -/
def round3 (q : ℚ) : ℚ :=
  (round (q * 1000) : ℤ) / 1000

/-- `weekly_avg_contributions = round(contributions_count / total_weeks, 3)`
(github.py line 433).  A zero `total_weeks` makes the Python division
raise `ZeroDivisionError`; there is no guard in the source. -/
def weeklyAvgContributions (contributionsCount daysSinceCreation : Nat) :
    Except GithubError ℚ :=
  if totalWeeks daysSinceCreation = 0 then .error .zeroDivisionError
  else .ok (round3 ((contributionsCount : ℚ) / (totalWeeks daysSinceCreation : ℚ)))

/-- Claim C3 fails on the code: for a profile created three days ago (or
any creation date less than 3.5 days in the past) `round(days / 7)` is
`0` and the unguarded division raises `ZeroDivisionError`.  For contrast,
the 14-days-ago / 7-contributions example of the specification evaluates
to `3.5` as specified. -/
theorem weekly_average_division_by_zero :
    totalWeeks 3 = 0 ∧
    weeklyAvgContributions 7 3 = Except.error GithubError.zeroDivisionError ∧
    totalWeeks 14 = 2 ∧
    weeklyAvgContributions 7 14 = Except.ok (7 / 2 : ℚ) := by
  refine ⟨by decide, rfl, by decide, ?_⟩
  show Except.ok (round3 ((7 : ℚ) / (2 : ℚ))) = Except.ok (7 / 2 : ℚ)
  norm_num [round3]

/-! ## Per-repository contribution merge (`_contribution_inference`, github.py lines 361-428)

`RepoContribution` is the record built by `extract_repo_detail` for one
repository inside one contribution kind (commit / issue / PR / PR review)
of one year window; `contributions_per_repo` is the concatenation of all
of them. -/

inductive OwnerType where
  | user
  | organization
  deriving DecidableEq, Repr

structure RepoContribution where
  name : String
  owner : String
  owner_type : OwnerType
  html_url : String
  description : String
  top_language : Option String
  contributions_count : Nat
  is_private : Bool
  deriving DecidableEq, Repr

/-- An entry of `final_count["other_repo"]`: the record minus the
`owner_type` and `is_private` keys (github.py line 416). -/
structure OtherRepoEntry where
  name : String
  owner : String
  html_url : String
  description : String
  top_language : Option String
  contributions_count : Nat
  deriving DecidableEq, Repr

def toOtherEntry (c : RepoContribution) : OtherRepoEntry :=
  ⟨c.name, c.owner, c.html_url, c.description, c.top_language, c.contributions_count⟩

/-- The `other_repo` update (github.py lines 414-419): find the first
entry with the same `html_url` and add to its count, else append the
record. -/
def insertContribution (c : RepoContribution) : List OtherRepoEntry → List OtherRepoEntry
  | [] => [toOtherEntry c]
  | e :: rest =>
    if e.html_url = c.html_url then
      { e with contributions_count := e.contributions_count + c.contributions_count } :: rest
    else
      e :: insertContribution c rest

/-- State of the `for c in contributions_per_repo` loop (github.py lines
399-421): the `owned_repo`, `other_repo`, `User` and `Organization`
accumulators of `final_count`.  String-keyed dicts are embedded as total
functions initially constant `0`. -/
structure ContribCounts where
  owned : String → Nat
  other : List OtherRepoEntry
  userOwned : String → Nat
  orgOwned : String → Nat

/-- One iteration of the loop: route the record to `owned_repo` (keyed by
name) or `other_repo` (deduplicated by `html_url`), then add its count
to the bucket of its owner under the record's owner type. -/
def contribStep (username : String) (st : ContribCounts) (c : RepoContribution) : ContribCounts :=
  let st' :=
    if c.owner = username then
      { st with owned := Function.update st.owned c.name (st.owned c.name + c.contributions_count) }
    else
      { st with other := insertContribution c st.other }
  match c.owner_type with
  | .user =>
    { st' with userOwned := Function.update st'.userOwned c.owner (st'.userOwned c.owner + c.contributions_count) }
  | .organization =>
    { st' with orgOwned := Function.update st'.orgOwned c.owner (st'.orgOwned c.owner + c.contributions_count) }

def mergeContributions (username : String) (cs : List RepoContribution) : ContribCounts :=
  cs.foldl (contribStep username) ⟨fun _ => 0, [], fun _ => 0, fun _ => 0⟩

/-- The final `contribution_count_per_other_repo` list: the merged
`other_repo` entries sorted descending by accumulated count (github.py
line 428), a stable Python sort embedded as `mergeSort`. -/
def sortedOtherRepos (username : String) (cs : List RepoContribution) : List OtherRepoEntry :=
  (mergeContributions username cs).other.mergeSort
    (fun a b => decide (b.contributions_count ≤ a.contributions_count))

/-- The total count contributed to one URL by records attributed to
non-identity owners. -/
def otherTally (username url : String) (cs : List RepoContribution) : Nat :=
  ((cs.filter (fun c => !(c.owner == username) && c.html_url == url)).map
    (·.contributions_count)).sum

/-- First-match lookup of a URL's accumulated count, the observation the
dedup theorem is phrased with. -/
def countOf : List OtherRepoEntry → String → Option Nat
  | [], _ => none
  | e :: rest, url =>
    if e.html_url = url then some e.contributions_count else countOf rest url

theorem countOf_insert (c : RepoContribution) :
    ∀ (acc : List OtherRepoEntry) (url : String),
    countOf (insertContribution c acc) url =
      if url = c.html_url then some ((countOf acc url).getD 0 + c.contributions_count)
      else countOf acc url
  | [], url => by
    by_cases h : url = c.html_url
    · subst h; simp [insertContribution, countOf, toOtherEntry]
    · simp [insertContribution, countOf, toOtherEntry, h, if_neg (Ne.symm h)]
  | e :: rest, url => by
    by_cases he : e.html_url = c.html_url
    · simp only [insertContribution, if_pos he]
      by_cases hu : e.html_url = url
      · have hu' : url = c.html_url := by rw [← hu, he]
        simp [countOf, hu, hu']
      · have hu' : ¬ url = c.html_url := fun h => hu (he.trans h.symm)
        simp [countOf, hu, hu']
    · simp only [insertContribution, if_neg he]
      by_cases hu : e.html_url = url
      · have hu' : ¬ url = c.html_url := fun h => he (hu.trans h)
        simp [countOf, hu, hu']
      · have ih := countOf_insert c rest url
        simpa [countOf, hu] using ih

theorem mem_urls_insert (c : RepoContribution) :
    ∀ (acc : List OtherRepoEntry) (u : String),
    u ∈ (insertContribution c acc).map (·.html_url) ↔
      u ∈ acc.map (·.html_url) ∨ u = c.html_url
  | [], u => by simp [insertContribution, toOtherEntry]
  | e :: rest, u => by
    by_cases he : e.html_url = c.html_url
    · simp only [insertContribution, if_pos he, List.map_cons, List.mem_cons]
      constructor
      · rintro (h | h)
        · exact Or.inl (Or.inl h)
        · exact Or.inl (Or.inr h)
      · rintro ((h | h) | h)
        · exact Or.inl h
        · exact Or.inr h
        · exact Or.inl (by rw [h, ← he])
    · have ih := mem_urls_insert c rest u
      simp only [insertContribution, if_neg he, List.map_cons, List.mem_cons, ih]
      tauto

theorem nodup_urls_insert (c : RepoContribution) :
    ∀ acc : List OtherRepoEntry,
    (acc.map (·.html_url)).Nodup → ((insertContribution c acc).map (·.html_url)).Nodup
  | [], _ => by simp [insertContribution, toOtherEntry]
  | e :: rest, hnd => by
    simp only [List.map_cons, List.nodup_cons] at hnd
    obtain ⟨hne, hrest⟩ := hnd
    by_cases he : e.html_url = c.html_url
    · simp only [insertContribution, if_pos he, List.map_cons, List.nodup_cons]
      exact ⟨hne, hrest⟩
    · have ih := nodup_urls_insert c rest hrest
      simp only [insertContribution, if_neg he, List.map_cons, List.nodup_cons]
      refine ⟨fun hmem => ?_, ih⟩
      rcases (mem_urls_insert c rest e.html_url).mp hmem with h | h
      · exact hne h
      · exact he h

/-- Restriction of the merge loop to the `other_repo` accumulator: the
`owned_repo` branch leaves it unchanged. -/
theorem contribStep_other (username : String) (st : ContribCounts) (c : RepoContribution) :
    (contribStep username st c).other =
      if c.owner = username then st.other else insertContribution c st.other := by
  unfold contribStep
  by_cases h : c.owner = username <;> cases c.owner_type <;> simp [h]

theorem mergeContributions_other_eq (username : String) :
    ∀ (cs : List RepoContribution) (st : ContribCounts),
    (cs.foldl (contribStep username) st).other =
      cs.foldl
        (fun acc c => if c.owner = username then acc else insertContribution c acc) st.other
  | [], _ => rfl
  | c :: cs, st => by
    have ih := mergeContributions_other_eq username cs (contribStep username st c)
    simp only [List.foldl_cons]
    rw [ih, contribStep_other]

theorem countOf_otherFold (username url : String) :
    ∀ (cs : List RepoContribution) (acc : List OtherRepoEntry),
    (countOf (cs.foldl
        (fun acc c => if c.owner = username then acc else insertContribution c acc) acc)
      url).getD 0 = (countOf acc url).getD 0 + otherTally username url cs
  | [], acc => by simp [otherTally]
  | c :: cs, acc => by
    simp only [List.foldl_cons]
    rw [countOf_otherFold username url cs _]
    by_cases ho : c.owner = username
    · have ht : otherTally username url (c :: cs) = otherTally username url cs := by
        simp [otherTally, List.filter_cons, ho]
      rw [if_pos ho, ht]
    · rw [if_neg ho, countOf_insert]
      by_cases hu : url = c.html_url
      · have ht : otherTally username url (c :: cs) =
            c.contributions_count + otherTally username url cs := by
          simp [otherTally, List.filter_cons, ho, hu.symm]
        rw [if_pos hu, ht, Option.getD_some]
        omega
      · have ht : otherTally username url (c :: cs) = otherTally username url cs := by
          simp only [otherTally, List.filter_cons, Bool.and_eq_true, Bool.not_eq_true',
            beq_iff_eq, beq_eq_false_iff_ne, decide_eq_true_eq]
          rw [if_neg (fun hand => hu hand.2.symm)]
        rw [if_neg hu, ht]

theorem nodup_otherFold (username : String) :
    ∀ (cs : List RepoContribution) (acc : List OtherRepoEntry),
    (acc.map (·.html_url)).Nodup →
    ((cs.foldl
        (fun acc c => if c.owner = username then acc else insertContribution c acc) acc).map
      (·.html_url)).Nodup
  | [], _, h => h
  | c :: cs, acc, h => by
    simp only [List.foldl_cons]
    apply nodup_otherFold username cs
    by_cases ho : c.owner = username
    · rwa [if_pos ho]
    · rw [if_neg ho]
      exact nodup_urls_insert c acc h

theorem countOf_of_mem :
    ∀ (l : List OtherRepoEntry), (l.map (·.html_url)).Nodup →
    ∀ e ∈ l, countOf l e.html_url = some e.contributions_count
  | [], _, e, he => absurd he (List.not_mem_nil e)
  | x :: rest, hnd, e, he => by
    simp only [List.map_cons, List.nodup_cons] at hnd
    obtain ⟨hx, hrest⟩ := hnd
    rcases List.mem_cons.mp he with rfl | hmem
    · simp [countOf]
    · have hne : ¬ x.html_url = e.html_url :=
        fun h => hx (h ▸ List.mem_map_of_mem (·.html_url) hmem)
      simp [countOf, hne, countOf_of_mem rest hrest e hmem]

/-- Claim C5: in the merged (and then sorted) `other_repo` list, each
repository URL appears at most once, and the entry for a URL carries the
sum of the `contributions_count`s of all records with that URL that are
attributed to a non-identity owner. -/
theorem other_repo_dedup (username : String) (cs : List RepoContribution) :
    ((sortedOtherRepos username cs).map (·.html_url)).Nodup ∧
    ∀ e ∈ sortedOtherRepos username cs,
      e.contributions_count = otherTally username e.html_url cs := by
  have hproj : (mergeContributions username cs).other =
      cs.foldl (fun acc c => if c.owner = username then acc else insertContribution c acc) [] :=
    mergeContributions_other_eq username cs _
  have hnd : ((mergeContributions username cs).other.map (·.html_url)).Nodup := by
    rw [hproj]
    exact nodup_otherFold username cs [] (by simp)
  have hperm : List.Perm (sortedOtherRepos username cs) (mergeContributions username cs).other :=
    List.mergeSort_perm _ _
  constructor
  · exact ((hperm.map (·.html_url)).nodup_iff).mpr hnd
  · intro e he
    have hmem : e ∈ (mergeContributions username cs).other := List.mem_mergeSort.mp he
    have hcount := countOf_of_mem _ hnd e hmem
    have hfold := countOf_otherFold username e.html_url cs []
    rw [← hproj] at hfold
    rw [hcount] at hfold
    simpa [countOf] using hfold

/-- Witness for `other_repo_dedup`: a commit record and an issue record for
the same non-identity repository URL merge into one entry counting five. -/
theorem other_repo_dedup_witness :
    (⟨"lib", "bob", "u", "", none, 5⟩ : OtherRepoEntry) ∈
      sortedOtherRepos "alice"
        [⟨"lib", "bob", .user, "u", "", none, 2, false⟩,
         ⟨"lib", "bob", .user, "u", "", none, 3, false⟩] ∧
    (5 : Nat) = otherTally "alice" "u"
        [⟨"lib", "bob", .user, "u", "", none, 2, false⟩,
         ⟨"lib", "bob", .user, "u", "", none, 3, false⟩] := by
  have hother : (mergeContributions "alice"
      [⟨"lib", "bob", .user, "u", "", none, 2, false⟩,
       ⟨"lib", "bob", .user, "u", "", none, 3, false⟩]).other =
      [⟨"lib", "bob", "u", "", none, 5⟩] := rfl
  have hsorted : sortedOtherRepos "alice"
      [⟨"lib", "bob", .user, "u", "", none, 2, false⟩,
       ⟨"lib", "bob", .user, "u", "", none, 3, false⟩] =
      [⟨"lib", "bob", "u", "", none, 5⟩] := by
    unfold sortedOtherRepos
    rw [hother, List.mergeSort_singleton]
  have hmem : (⟨"lib", "bob", "u", "", none, 5⟩ : OtherRepoEntry) ∈
      sortedOtherRepos "alice"
        [⟨"lib", "bob", .user, "u", "", none, 2, false⟩,
         ⟨"lib", "bob", .user, "u", "", none, 3, false⟩] := by
    rw [hsorted]
    exact List.mem_cons_self _ _
  have h := (other_repo_dedup "alice"
    [⟨"lib", "bob", .user, "u", "", none, 2, false⟩,
     ⟨"lib", "bob", .user, "u", "", none, 3, false⟩]).2
    ⟨"lib", "bob", "u", "", none, 5⟩ hmem
  exact ⟨hmem, h⟩

/-! ## Repository inference orchestration and the private-inclusion gate
(`_username_token_check`, github.py lines 158-164, and
`_repository_inference`, lines 202-203) -/

/-- Kinds of HTTP requests `_repository_inference` can issue, in order:
the `/user` identity check and the repository listing. -/
inductive RequestKind where
  | userCheck
  | repoListing
  deriving DecidableEq, Repr

/-- One entry of `top_repo_stars_forks` (github.py lines 229-238). -/
structure PopularRepo where
  name : String
  html_url : String
  description : String
  top_language : Option String
  stargazers_count : Nat
  forks_count : Nat
  deriving DecidableEq, Repr

def popularRepoOf (r : Repo) : PopularRepo :=
  ⟨r.name, r.html_url, r.description, r.language, r.stargazers_count, r.forks_count⟩

/-- The `stats` dict of `_repository_inference` (github.py lines 240-247);
`counts` is the `(stargazers_count, forks_count)` pair summed over the
original repositories. -/
structure RepoStats where
  incomplete_repo_results : Bool
  inference_from_repo_count : Nat
  original_repo_count : Nat
  forked_repo_count : Nat
  counts : Nat × Nat
  top_repo_stars_forks : List PopularRepo
  deriving DecidableEq, Repr

structure RepoResult where
  stats : RepoStats
  original_repos : List Repo
  deriving DecidableEq, Repr

/-- The body of `_repository_inference` after the listing URL is chosen:
paginate, sort, partition, sum the counts, slice the top `top_repo_n`. -/
def repoInferenceResult (username : String) (topRepoN : Nat) (startUrl : String)
    (pages : List (Page Repo)) : RepoResult :=
  let fetched := multipageRequest startUrl pages
  let orig := originalRepos username fetched.1
  let forked := forkedRepos username fetched.1
  { stats :=
      { incomplete_repo_results := fetched.2
        inference_from_repo_count := fetched.1.length
        original_repo_count := orig.length
        forked_repo_count := forked.length
        counts := ((orig.map (·.stargazers_count)).sum, (orig.map (·.forks_count)).sum)
        top_repo_stars_forks := (orig.take topRepoN).map popularRepoOf }
    original_repos := orig }

/-- `_username_token_check`: raise the identity-mismatch error when the
login of the `/user` response differs from the requested username. -/
def usernameTokenCheck (username associatedLogin : String) : Except GithubError Unit :=
  if associatedLogin ≠ username then .error .identityMismatch else .ok ()

/-- `_repository_inference` with its requests traced.  `userLoginResp` is
the outcome of the `/user` call of `_username_token_check` (`login` field
on success, classifier error otherwise); the check runs only when
`include_private` is requested, before the repository listing is
fetched. -/
def repositoryInference (username : String) (userLoginResp : Except GithubError String)
    (includePrivate : Bool) (pages : List (Page Repo)) (topRepoN : Nat) :
    Except GithubError RepoResult × List RequestKind :=
  if includePrivate then
    match userLoginResp with
    | .error e => (.error e, [.userCheck])
    | .ok login =>
      match usernameTokenCheck username login with
      | .error e => (.error e, [.userCheck])
      | .ok _ =>
        (.ok (repoInferenceResult username topRepoN "/user/repos?per_page=100" pages),
         [.userCheck, .repoListing])
  else
    (.ok (repoInferenceResult username topRepoN
        ("/users/" ++ username ++ "/repos?per_page=100") pages),
     [.repoListing])

/-- Claim C9: with private inclusion requested and the `/user` call
answered with `login`, the repository aggregator fails with the
identity-mismatch error exactly when `login` differs from the requested
username; on mismatch the only request issued is the identity check (the
repository listing is never fetched); and the mismatch error is a local
consistency failure no HTTP response can produce through the error
classifier. -/
theorem private_inclusion_identity_gate :
    (∀ (username login : String) (pages : List (Page Repo)) (n : Nat),
      (repositoryInference username (.ok login) true pages n).1 =
        Except.error GithubError.identityMismatch ↔ login ≠ username) ∧
    (∀ (username login : String) (pages : List (Page Repo)) (n : Nat),
      login ≠ username →
      (repositoryInference username (.ok login) true pages n).2 = [RequestKind.userCheck]) ∧
    (∀ (tok : Option String) (r : HttpResponse) (g : Bool),
      errorHandling tok r g ≠ Except.error GithubError.identityMismatch) := by
  refine ⟨?_, ?_, ?_⟩
  · intro username login pages n
    by_cases h : login = username <;>
      simp [repositoryInference, usernameTokenCheck, h]
  · intro username login pages n h
    simp [repositoryInference, usernameTokenCheck, h]
  · intro tok r g
    unfold errorHandling
    by_cases h200 : r.statusCode = 200
    · simp only [h200, if_true]
      cases g
      · simp
      · rcases r.errorMessages with _ | (_ | ⟨m, rest⟩)
        · simp
        · simp
        · by_cases hm : m.isEmpty = true <;> simp [hm]
    · by_cases h401 : r.statusCode = 401
      · cases pythonTruthyToken tok <;> simp [h200, h401]
      · by_cases h403 : r.statusCode = 403
        · simp [h200, h401, h403]
        · by_cases h404 : r.statusCode = 404 <;> simp [h200, h401, h403, h404]

/-- Witness for `private_inclusion_identity_gate`: requesting private
inclusion for username `alice` with a token bound to `bob` fails with the
identity-mismatch error after the identity check alone. -/
theorem private_inclusion_identity_gate_witness :
    (repositoryInference "alice" (.ok "bob") true [] 3).1 =
      Except.error GithubError.identityMismatch ∧
    (repositoryInference "alice" (.ok "bob") true [] 3).2 = [RequestKind.userCheck] := by
  have h := private_inclusion_identity_gate
  exact ⟨(h.1 "alice" "bob" [] 3).mpr (by decide), h.2.1 "alice" "bob" [] 3 (by decide)⟩

/-! ## Keyword extractor (`GithubProfile._skill_inference`, github.py lines 463-503)

Python string primitives used by the extractor, embedded over ASCII text
(the taxonomy and the analyzed bios are ASCII).  The `re.sub` cleanup of
the bio strips newlines, markdown heading markers, apostrophes, URLs,
bracketed asides, HTML tags and entities and then lowercases; for texts
containing none of those patterns — such as every input analyzed below —
the substitution is the identity, so the embedding keeps only the
lowercasing step. -/

structure TagEntry where
  label : String
  value : String
  deriving DecidableEq, Repr

/-- Python `str.lower()` (character-list based so the kernel can evaluate
it on the concrete examples). -/
def toLowerAscii (s : String) : String :=
  ⟨s.data.map Char.toLower⟩

/-- Python `value.replace("-", " ")`. -/
def hyphenToSpace (s : String) : String :=
  ⟨s.data.map (fun c => if c = '-' then ' ' else c)⟩

/-- Python `word.replace(" ", "-").replace("/", "-")`. -/
def spaceSlashToHyphen (s : String) : String :=
  ⟨(s.data.map (fun c => if c = ' ' then '-' else c)).map (fun c => if c = '/' then '-' else c)⟩

def titleChars : Bool → List Char → List Char
  | _, [] => []
  | prevAlpha, c :: cs =>
    if c.isAlpha then (if prevAlpha then c.toLower else c.toUpper) :: titleChars true cs
    else c :: titleChars false cs

/-- Python `str.title()`: the first letter of each run of letters is
uppercased, the rest lowercased. -/
def pythonTitle (s : String) : String :=
  ⟨titleChars false s.data⟩

/-- Word characters of the regex `\b` assertion: `[A-Za-z0-9_]`. -/
def isWordChar (c : Char) : Bool :=
  c.isAlphanum || c = '_'

def optIsWordChar : Option Char → Bool
  | none => false
  | some c => isWordChar c

/-- Chop `word` off the front of `t`, returning the remainder. -/
def splitMatch : List Char → List Char → Option (List Char)
  | [], t => some t
  | _, [] => none
  | w :: ws, c :: cs => if w = c then splitMatch ws cs else none

/-- Does `word` occur at the current position (preceded by `prev`) with a
regex word boundary on both sides?  Taxonomy entries are non-empty, so
the empty pattern is mapped to no match. -/
def wordAt (prev : Option Char) (word t : List Char) : Bool :=
  match word with
  | [] => false
  | w0 :: _ =>
    match splitMatch word t with
    | none => false
    | some rest =>
      (optIsWordChar prev != isWordChar w0) &&
        (optIsWordChar word.getLast? != optIsWordChar rest.head?)

def searchFrom (word : List Char) : Option Char → List Char → Bool
  | prev, [] => wordAt prev word []
  | prev, c :: cs => wordAt prev word (c :: cs) || searchFrom word (some c) cs

/-- Python `re.search(rf"\b{word}\b", text)` for a metacharacter-free
`word` (both sides already lowercased, making `re.IGNORECASE` moot). -/
def reSearchWord (word text : String) : Bool :=
  searchFrom word.data none text.data

/-- One lowercased taxonomy label (github.py line 477). -/
def normLabel (e : TagEntry) : String :=
  toLowerAscii e.label

/-- One taxonomy value with hyphens turned into spaces, lowercased
(github.py line 478). -/
def normValue (e : TagEntry) : String :=
  toLowerAscii (hyphenToSpace e.value)

/-- `keywords_set = set(labels + values)` (github.py line 479), embedded
as a deduplicated list. -/
def keywordsSetOf (keywords : List TagEntry) : List String :=
  (keywords.map normLabel ++ keywords.map normValue).dedup

/-- The comprehension `{word for word in keywords_set if re.search(...)}`. -/
def matchedKeywords (keywords : List TagEntry) (text : String) : List String :=
  (keywordsSetOf keywords).filter (fun w => reSearchWord w text)

/-- `profile_keywords` accumulated from bio and profile README (github.py
lines 481-495): a falsy (absent or empty) bio contributes nothing; a
missing README (no `content` key) contributes nothing. -/
def profileKeywords (keywords : List TagEntry) (bio readmeDecoded : Option String) :
    List String :=
  let bioPart :=
    match bio with
    | none => []
    | some b => if b.isEmpty then [] else matchedKeywords keywords (toLowerAscii b)
  let readmePart :=
    match readmeDecoded with
    | none => []
    | some rm => matchedKeywords keywords (toLowerAscii rm)
  (bioPart ++ readmePart).dedup

/-- `keywords_from_values` (github.py line 497): matched space-normalized
values, re-slugged. -/
def keywordsFromValues (keywords : List TagEntry) (profKw : List String) : List String :=
  ((keywords.map normValue).filter (fun w => profKw.contains w)).map spaceSlashToHyphen

/-- `keywords_from_labels` (github.py lines 499-501): canonical values of
entries whose titled label appears among titled matched keywords. -/
def keywordsFromLabels (keywords : List TagEntry) (profKw : List String) : List String :=
  (keywords.filter (fun e => (profKw.map pythonTitle).contains (pythonTitle e.label))).map
    (·.value)

/-- `key_qualifications = list(keywords_from_values | keywords_from_labels)`
(github.py line 503). -/
def keyQualificationsOf (keywords : List TagEntry) (bio readmeDecoded : Option String) :
    List String :=
  let profKw := profileKeywords keywords bio readmeDecoded
  (keywordsFromValues keywords profKw ++ keywordsFromLabels keywords profKw).dedup

/-- The two-entry taxonomy of the specification's keyword-matching
example. -/
def profileTagsDemo : List TagEntry :=
  [⟨"Machine Learning", "machine-learning"⟩, ⟨"Python", "python"⟩]

/-- Claim C4, counterexample: the bio `I love machine-learning and Python`
with the example taxonomy yields only `python` — the hyphenated slug
`machine-learning` in the text does not match, because the extractor
matches against the hyphens-to-spaces form `machine learning`, which does
not occur in the text. -/
theorem keyword_extractor_counterexample :
    keyQualificationsOf profileTagsDemo (some "I love machine-learning and Python") none =
      ["python"] ∧
    "machine-learning" ∉
      keyQualificationsOf profileTagsDemo (some "I love machine-learning and Python") none := by
  constructor
  · decide
  · decide

/-- Claim C4, amended: the extractor maps any matched taxonomy label back
to its canonical value and any matched space-normalized value back to its
slug form, returning the deduplicated union of canonical values; a value
matches only through its hyphens-to-spaces form, so for the bio
`I love machine-learning and Python` the output is exactly
`{"python"}`, while the space form `machine learning` in the bio makes
the output `{"machine-learning", "python"}`. -/
theorem keyword_extractor_amended :
    (∀ (keywords : List TagEntry) (bio readmeDecoded : Option String),
      (keyQualificationsOf keywords bio readmeDecoded).Nodup) ∧
    keyQualificationsOf profileTagsDemo (some "I love machine-learning and Python") none =
      ["python"] ∧
    keyQualificationsOf profileTagsDemo (some "I love machine learning and Python") none =
      ["machine-learning", "python"] := by
  refine ⟨fun keywords bio readmeDecoded => ?_, by decide, by decide⟩
  exact List.nodup_dedup _

/-! ## Skill inference (`_skill_inference`, github.py lines 505-530),
contribution assembly (`_contribution_inference`, lines 251-461) and the
`perform_inference` orchestration (lines 532-553) -/

/-- Python `key.replace(" ", "-")`. -/
def spaceToHyphen (s : String) : String :=
  ⟨s.data.map (fun c => if c = ' ' then '-' else c)⟩

/-- The `languages_count` dict, embedded as an association list in
insertion order with first-match accumulation. -/
def upsertCount : List (String × Nat) → String → Nat → List (String × Nat)
  | [], k, n => [(k, n)]
  | (k', n') :: rest, k, n =>
    if k' = k then (k', n' + n) :: rest else (k', n') :: upsertCount rest k n

/-- Token branch of the language histogram (github.py lines 507-512):
count each key of each original repo's `languages_url` response, with
spaces hyphenated and lowercased. -/
def languagesCountWithToken (origRepos : List Repo) (langsOf : Repo → List String) :
    List (String × Nat) :=
  origRepos.foldl
    (fun acc r =>
      (langsOf r).foldl (fun acc2 k => upsertCount acc2 (toLowerAscii (spaceToHyphen k)) 1) acc)
    []

/-- Tokenless branch (github.py lines 516-519): count each repo's truthy
`language` field. -/
def languagesCountNoToken (origRepos : List Repo) : List (String × Nat) :=
  origRepos.foldl
    (fun acc r =>
      match r.language with
      | none => acc
      | some lang =>
        if lang.isEmpty then acc else upsertCount acc (toLowerAscii (spaceToHyphen lang)) 1)
    []

/-- The `skill` dict (github.py lines 523-528). -/
structure SkillResult where
  inference_from_originalrepo_count : Nat
  key_qualifications : List String
  top_n_languages : List String
  languages_percentage : Option (List (String × ℚ))

/-- `_skill_inference`: keyword extraction plus the token-dependent
language histogram, sorted descending by count (Python's stable
`sorted(..., reverse=True)`); with a token the percentages divide each
count by the number of original repos (the histogram is empty whenever
that number is zero, so the embedded total division matches). -/
def skillInference (accessToken : Option String) (taxonomy : List TagEntry)
    (bio readmeDecoded : Option String) (origRepos : List Repo)
    (langsOf : Repo → List String) (topLanguageN : Nat) : SkillResult :=
  let keyQ := keyQualificationsOf taxonomy bio readmeDecoded
  if pythonTruthyToken accessToken then
    let counts := languagesCountWithToken origRepos langsOf
    let sortedPairs := counts.mergeSort (fun a b => decide (b.2 ≤ a.2))
    { inference_from_originalrepo_count := origRepos.length
      key_qualifications := keyQ
      top_n_languages := (sortedPairs.map (·.1)).take topLanguageN
      languages_percentage :=
        some (sortedPairs.map (fun p => (p.1, round3 ((p.2 : ℚ) / (origRepos.length : ℚ))))) }
  else
    let counts := languagesCountNoToken origRepos
    let sortedPairs := counts.mergeSort (fun a b => decide (b.2 ≤ a.2))
    { inference_from_originalrepo_count := origRepos.length
      key_qualifications := keyQ
      top_n_languages := (sortedPairs.map (·.1)).take topLanguageN
      languages_percentage := none }

/-- One entry of a `contributors_url` response used by the
incoming-contribution pass (github.py lines 435-447). -/
structure ContributorRecord where
  login : String
  contributions : Nat
  deriving DecidableEq, Repr

/-- The `incoming_contribution` dict: contributions of every login other
than the identity, summed. -/
def incomingContribution (username : String) (ds : List ContributorRecord) : String → Nat :=
  ds.foldl
    (fun f d =>
      if d.login = username then f
      else Function.update f d.login (f d.login + d.contributions))
    (fun _ => 0)

/-- The `contribution` dict (github.py lines 449-459).  String-keyed
count dicts are embedded as total functions; the descending re-orderings
of `sorted_count` reorder dict keys only and do not change any count, so
the per-day/month/owner tables are the key-to-value maps themselves,
while `other_repo` (a list, not a dict) keeps its sorted order. -/
structure ContributionReport where
  contribution_count : Nat
  weekly_average_contribution : ℚ
  contribution_count_per_day : Fin 7 → Nat × Nat
  contribution_count_per_month : Fin 12 → Nat × Nat
  contribution_count_per_owned_repo : String → Nat
  contribution_count_per_other_repo : List OtherRepoEntry
  contribution_count_per_repo_org_owner : String → Nat
  contribution_count_per_repo_user_owner : String → Nat
  external_contribution_to_top_10_repo : String → Nat

/-- The upstream responses `_contribution_inference` consumes: the two
GraphQL queries per year window and the contributor lists of the top ten
original repos, flattened. -/
structure ContribEnv where
  windows : List CalendarWindow
  repoContributions : List RepoContribution
  contributorsOfTop10 : List ContributorRecord

/-- `_contribution_inference`, with the number of HTTP requests issued
alongside the result.  Without a (truthy) access token the function
returns `None` immediately, before any request (github.py lines
262-263).  Otherwise it issues two GraphQL queries per year window, can
raise `ZeroDivisionError` at the weekly average (before the contributor
fetches), and otherwise adds one contributors request per top-ten
original repo. -/
def contributionInference (username : String) (accessToken : Option String)
    (createdAt today : CivilDate) (origRepos : List Repo) (includePrivate : Bool)
    (env : ContribEnv) : Except GithubError (Option ContributionReport) × Nat :=
  if pythonTruthyToken accessToken = false then (.ok none, 0)
  else
    let perDay := contributionsPerDay env.windows
    let count := graphContributionsCount env.windows
    let visible :=
      if includePrivate then env.repoContributions
      else env.repoContributions.filter (fun c => !c.is_private)
    let merged := mergeContributions username visible
    let daysSince := dayNumber today - dayNumber createdAt
    let graphRequests := 2 * (today.year + 1 - createdAt.year)
    match weeklyAvgContributions count daysSince with
    | .error e => (.error e, graphRequests)
    | .ok avg =>
      (.ok (some
        { contribution_count := count
          weekly_average_contribution := avg
          contribution_count_per_day := dayTotals today perDay
          contribution_count_per_month := monthTotals today perDay
          contribution_count_per_owned_repo := merged.owned
          contribution_count_per_other_repo :=
            merged.other.mergeSort (fun a b => decide (b.contributions_count ≤ a.contributions_count))
          contribution_count_per_repo_org_owner := merged.orgOwned
          contribution_count_per_repo_user_owner := merged.userOwned
          external_contribution_to_top_10_repo :=
            incomingContribution username env.contributorsOfTop10 }),
       graphRequests + min 10 origRepos.length)

/-- The profile dict of `_profile_inference` (github.py lines 175-189)
plus the `created_at` date it returns alongside. -/
structure ProfileData where
  login : String
  name : Option String
  company : Option String
  blog : Option String
  location : Option String
  email : Option String
  hireable : Option Bool
  twitter_username : Option String
  avatar_url : String
  bio : Option String
  followers : Nat
  following : Nat
  created_at : CivilDate

/-- The `self.inference` mapping assembled by `perform_inference`
(github.py lines 545-551). -/
structure InferenceOutput where
  profile : ProfileData
  skill : SkillResult
  stats : RepoStats
  contribution : Option ContributionReport

/-- `perform_inference`: profile, repositories, skills, contributions, in
order, aborting on the first raised error. -/
def performInference (username : String) (accessToken : Option String)
    (topRepoN topLanguageN : Nat) (includePrivate : Bool)
    (profile : ProfileData) (userLoginResp : Except GithubError String)
    (repoPages : List (Page Repo)) (taxonomy : List TagEntry)
    (readmeDecoded : Option String) (langsOf : Repo → List String)
    (today : CivilDate) (cenv : ContribEnv) : Except GithubError InferenceOutput :=
  match repositoryInference username userLoginResp includePrivate repoPages topRepoN with
  | (.error e, _) => .error e
  | (.ok repoRes, _) =>
    let skill := skillInference accessToken taxonomy profile.bio readmeDecoded
      repoRes.original_repos langsOf topLanguageN
    match contributionInference username accessToken profile.created_at today
        repoRes.original_repos includePrivate cenv with
    | (.error e, _) => .error e
    | (.ok contribution, _) =>
      .ok { profile := profile, skill := skill, stats := repoRes.stats,
            contribution := contribution }

/-- Claim C10: without an access token `_contribution_inference` returns
`None` having issued zero requests, and consequently every successful
`perform_inference` run without a token carries `None` in the
`contribution` entry of the resulting inference mapping. -/
theorem contribution_none_without_token :
    (∀ (username : String) (createdAt today : CivilDate) (origRepos : List Repo)
       (includePrivate : Bool) (env : ContribEnv),
      contributionInference username none createdAt today origRepos includePrivate env =
        (Except.ok none, 0)) ∧
    (∀ (username : String) (topRepoN topLanguageN : Nat) (includePrivate : Bool)
       (profile : ProfileData) (userLoginResp : Except GithubError String)
       (repoPages : List (Page Repo)) (taxonomy : List TagEntry)
       (readmeDecoded : Option String) (langsOf : Repo → List String)
       (today : CivilDate) (cenv : ContribEnv) (out : InferenceOutput),
      performInference username none topRepoN topLanguageN includePrivate profile
          userLoginResp repoPages taxonomy readmeDecoded langsOf today cenv =
        Except.ok out →
      out.contribution = none) := by
  constructor
  · intro username createdAt today origRepos includePrivate env
    rfl
  · intro username topRepoN topLanguageN includePrivate profile userLoginResp repoPages
      taxonomy readmeDecoded langsOf today cenv out h
    unfold performInference at h
    rcases hrep : repositoryInference username userLoginResp includePrivate repoPages topRepoN
      with ⟨res, tr⟩
    rw [hrep] at h
    cases res with
    | error e => simp at h
    | ok repoRes =>
      have hc : contributionInference username none profile.created_at today
          repoRes.original_repos includePrivate cenv = (Except.ok none, 0) := rfl
      dsimp only at h
      rw [hc] at h
      dsimp only at h
      simp only [Except.ok.injEq] at h
      rw [← h]

/-- Concrete profile for the `perform_inference` witness run. -/
def profileDemo : ProfileData :=
  { login := "alice", name := none, company := none, blog := none, location := none,
    email := none, hireable := none, twitter_username := none, avatar_url := "",
    bio := none, followers := 0, following := 0, created_at := ⟨2020, 1, 1⟩ }

/-- The inference mapping produced by the witness run. -/
def inferenceDemoOutput : InferenceOutput :=
  { profile := profileDemo
    skill := { inference_from_originalrepo_count := 0, key_qualifications := [],
               top_n_languages := [], languages_percentage := none }
    stats := { incomplete_repo_results := false, inference_from_repo_count := 0,
               original_repo_count := 0, forked_repo_count := 0, counts := (0, 0),
               top_repo_stars_forks := [] }
    contribution := none }

/-- Witness for `contribution_none_without_token`: a tokenless
`perform_inference` run over an empty repository listing succeeds and its
`contribution` entry is `None`. -/
theorem contribution_none_without_token_witness :
    performInference "alice" none 3 3 false profileDemo (.ok "alice") [] [] none
        (fun _ => []) ⟨2023, 1, 1⟩ ⟨[], [], []⟩ = Except.ok inferenceDemoOutput ∧
    inferenceDemoOutput.contribution = none := by
  have hperf : performInference "alice" none 3 3 false profileDemo (.ok "alice") [] [] none
      (fun _ => []) ⟨2023, 1, 1⟩ ⟨[], [], []⟩ = Except.ok inferenceDemoOutput := by
    unfold performInference repositoryInference repoInferenceResult multipageRequest
      multipageLoop originalRepos forkedRepos sortRepos skillInference contributionInference
      languagesCountNoToken keyQualificationsOf profileKeywords keywordsFromValues
      keywordsFromLabels
    simp [inferenceDemoOutput, profileDemo, pythonTruthyToken, weeklyAvgContributions]
  exact ⟨hperf, contribution_none_without_token.2 "alice" 3 3 false profileDemo
    (.ok "alice") [] [] none (fun _ => []) ⟨2023, 1, 1⟩ ⟨[], [], []⟩ inferenceDemoOutput hperf⟩

end Superinference
